import Mathlib

/-!
Verification of the godock stream-demultiplexer and interactive-session core.

Bytes are modelled as natural numbers (values < 256 where it matters), byte
streams as `List Nat`, and writers/sinks as abstract identifiers: a write is
recorded as an event pairing the sink with the bytes handed to it, so that
"the content a sink received" is the concatenation of its events in order.
Go errors are a small inductive type; `io.Copy`-style results are
`Option GoErr` with `none` meaning clean EOF (the `io.Copy` of Go returns a nil
error on EOF).
-/

namespace Godock

/-- Big-endian 32-bit value of four bytes, as read from header bytes 4–7. -/
def be32val (b3 b2 b1 b0 : Nat) : Nat :=
  b3 * 16777216 + b2 * 65536 + b1 * 256 + b0

/-- Big-endian 32-bit encoding of a length, as the test helper
`createDockerLogEntry` produces with `binary.BigEndian.PutUint32`. -/
def be32 (n : Nat) : List Nat :=
  [n / 16777216 % 256, n / 65536 % 256, n / 256 % 256, n % 256]

/-- The two routing destinations of the demultiplexer: the stdout-sink field
or the stderr-sink field of the copier. -/
inductive Chan
  | out
  | err
deriving DecidableEq, Repr

/-- Modelled from the spec: tag byte 0 of the 8-byte header selects the
channel; STDERR (tag 2) routes to the stderr sink, STDOUT (tag 1) to the
stdout sink, and unrecognized tags go to the implementation-defined default
(the stdout-equivalent). -/
def routeTag (tag : Nat) : Chan :=
  if tag = 2 then Chan.err else Chan.out

/-- Framing failure of the demultiplexer: the stream ended inside a header or
inside a payload. -/
inductive DemuxErr
  | shortHeader
  | shortPayload
deriving DecidableEq, Repr

/-- Modelled from the spec: the body of `stdcopy.StdCopy`, the external
dependency `LogCopier.Copy` delegates to (its source is not part of this
repository). Loop: read an 8-byte header (1 tag byte, 3 reserved, 4-byte
big-endian length); read exactly `length` payload bytes; route the payload to
the channel matching the tag; accumulate routed payload bytes (never header
bytes) into the running total. Clean end-of-stream at a frame boundary ends
the loop successfully; any other short read is an error. Returns the ordered
write events, the byte count, and the error if any. -/
def stdCopy (src : List Nat) : List (Chan × List Nat) × Nat × Option DemuxErr :=
  match src with
  | [] => ([], 0, none)
  | tag :: _ :: _ :: _ :: b3 :: b2 :: b1 :: b0 :: rest =>
    let len := be32val b3 b2 b1 b0
    if len ≤ rest.length then
      let res := stdCopy (rest.drop len)
      ((routeTag tag, rest.take len) :: res.1, len + res.2.1, res.2.2)
    else
      ([], 0, some DemuxErr.shortPayload)
  | _ => ([], 0, some DemuxErr.shortHeader)
termination_by src.length
decreasing_by simp only [List.length_drop, List.length_cons]; omega

/-- One frame of the multiplexed stream: a tag and a payload. -/
structure Frame where
  tag : Nat
  payload : List Nat
deriving DecidableEq, Repr

/-- A frame is encodable iff its payload length fits the 4-byte length field. -/
def Frame.valid (f : Frame) : Prop :=
  f.payload.length < 4294967296

/-- Encoding of one frame, as the test helper `createDockerLogEntry` builds
it: 8-byte header (tag, three zero bytes, big-endian length) then payload. -/
def encodeFrame (f : Frame) : List Nat :=
  f.tag :: 0 :: 0 :: 0 :: (be32 f.payload.length ++ f.payload)

/-- A source stream consisting of a sequence of valid frames. -/
def encodeFrames (fs : List Frame) : List Nat :=
  (fs.map encodeFrame).flatten

/-- Sum of the payload lengths of a frame list. -/
def sumPayload (fs : List Frame) : Nat :=
  (fs.map (fun f => f.payload.length)).sum

/-- `LogCopier` from `pkg/godock` (file with `NewLogCopier`): holds the two
destination writers. Writers are abstract sink identifiers of type `ω`. -/
structure LogCopier (ω : Type) where
  stdout : ω
  stderr : ω
deriving DecidableEq, Repr

/-- `NewLogCopier` from the source: if the stderr writer is nil (`none`), the
stdout writer is used for both streams. -/
def NewLogCopier {ω : Type} (stdout : ω) (stderr : Option ω) : LogCopier ω :=
  { stdout := stdout, stderr := stderr.getD stdout }

/-- The concrete writer a routed channel reaches: `Chan.out` is the field
stdout field, `Chan.err` its stderr field. -/
def LogCopier.sinkOf {ω : Type} (lc : LogCopier ω) : Chan → ω
  | Chan.out => lc.stdout
  | Chan.err => lc.stderr

/-- `LogCopier.Copy` from the source: delegates to `stdCopy` with the two
configured writers. Result: write events (sink, bytes handed to the sink),
the written count, the error. -/
def LogCopier.Copy {ω : Type} (lc : LogCopier ω) (src : List Nat) :
    List (ω × List Nat) × Nat × Option DemuxErr :=
  let res := stdCopy src
  (res.1.map (fun p => (lc.sinkOf p.1, p.2)), res.2.1, res.2.2)

/-- `prefixWriter.Write` from the source: writes `pfx ++ p` to the underlying
writer and reports `p.length` bytes written (the prefix is not counted). -/
def prefixWriterWrite (pfx p : List Nat) : List Nat × Nat :=
  (pfx ++ p, p.length)

/-- `LogCopier.CopyWithPrefix` from the source: wraps each writer in a
`prefixWriter` and delegates to `stdCopy`; each routed payload therefore
reaches the real sink as the output bytes of `prefixWriterWrite`, while the
count accumulated by `stdCopy` is the payload length it reports. -/
def LogCopier.CopyWithPrefix {ω : Type} (lc : LogCopier ω) (src : List Nat)
    (outPfx errPfx : List Nat) :
    List (ω × List Nat) × Nat × Option DemuxErr :=
  let res := stdCopy src
  (res.1.map (fun p =>
      (lc.sinkOf p.1,
       (prefixWriterWrite (match p.1 with | Chan.out => outPfx | Chan.err => errPfx) p.2).1)),
   res.2.1, res.2.2)

/-- The full byte content a sink ends up holding: the concatenation, in event
order, of all writes addressed to it. -/
def sinkContent {ω : Type} [DecidableEq ω] (evs : List (ω × List Nat)) (s : ω) :
    List Nat :=
  ((evs.filter (fun p => decide (p.1 = s))).map (fun p => p.2)).flatten

/-- A Go error value. `wrap m e` is `fmt.Errorf` with `%w`; `closedPipe` is
`io.ErrClosedPipe`. A clean EOF is not an error: `io.Copy` and the loops
below use `Option GoErr` / `Except GoErr` with `none` / `ok` for it. -/
inductive GoErr
  | closedPipe
  | base (msg : String)
  | wrap (msg : String) (cause : GoErr)
deriving DecidableEq, Repr

/-- Saved terminal mode settings, `term.State`; opaque contents. -/
structure TermState where
  mode : Nat
deriving DecidableEq, Repr

/-- `Session` from `pkg/godock/terminal`: the local stdin handle, the saved
terminal state, and the hijacked connection and its reader (abstract
handles). The resize channel is modelled implicitly by `monitorStep`. -/
structure Session where
  stdin : Nat
  oldState : Option TermState
  hijacked : Nat
  reader : Nat
deriving DecidableEq, Repr

/-- `NewSession` from the source: `term.MakeRaw` on stdin either fails — the
whole construction fails with a wrapped error and no session value exists —
or yields the saved state stored in the new session. The environment
outcome of `term.MakeRaw` is the `makeRawResult` argument. -/
def NewSession (stdin hijacked reader : Nat)
    (makeRawResult : Except GoErr TermState) : Except GoErr Session :=
  match makeRawResult with
  | Except.error e => Except.error (GoErr.wrap "failed to set terminal to raw mode" e)
  | Except.ok st =>
      Except.ok { stdin := stdin, oldState := some st,
                  hijacked := hijacked, reader := reader }

/-- `Session.Close` from the source: if `oldState` is non-nil, call
`term.Restore` (outcome supplied by the environment as `restoreResult`) and
wrap its failure; the session value is never mutated (in particular
`oldState` is never cleared). Returns the unchanged session, the returned
error, and the number of restore attempts this call performed. -/
def Session.close (s : Session) (restoreResult : Option GoErr) :
    Session × Option GoErr × Nat :=
  match s.oldState with
  | some _ =>
      match restoreResult with
      | some e => (s, some (GoErr.wrap "failed to restore terminal state" e), 1)
      | none => (s, none, 1)
  | none => (s, none, 0)

/-- Events observable during `Session.Start`, in program order. `recvErr` is
the single `<-errCh` receive; `cancelSibling` would be an explicit
cancellation of the still-blocked copy goroutine (the source has none, so it
is never emitted); `ret` is control returning to the caller. -/
inductive Ev
  | spawnOutputCopy
  | spawnInputCopy
  | recvErr
  | cancelSibling
  | closeCalled
  | restoreAttempt
  | ret
deriving DecidableEq, Repr

/-- The events the deferred `s.Close()` contributes: the call itself, then a
restore attempt when `oldState` is non-nil. -/
def Session.closeTrace (s : Session) : List Ev :=
  Ev.closeCalled ::
    (match s.oldState with
     | some _ => [Ev.restoreAttempt]
     | none => [])

/-- Which of the two copy goroutines sends on `errCh` first. -/
inductive FirstFinisher
  | outputCopy
  | inputCopy
deriving DecidableEq, Repr

/-- `Session.Start` from the source: spawn the remote-output→stdout copy and
the stdin→remote copy, receive the first result from `errCh` (its value is
the `io.Copy` error of the finishing direction, `none` on EOF), and return —
wrapping a non-nil error — after the deferred `Close` runs. `outputRes` and
`inputRes` are the eventual `io.Copy` results of the two directions;
`restoreResult` is the outcome the environment gives the deferred restore, whose
error `defer` discards. Returns the error of Start and the event trace. -/
def Session.start (s : Session) (first : FirstFinisher)
    (outputRes inputRes restoreResult : Option GoErr) :
    Option GoErr × List Ev :=
  let firstErr :=
    match first with
    | FirstFinisher.outputCopy => outputRes
    | FirstFinisher.inputCopy => inputRes
  match firstErr with
  | some e =>
      (some (GoErr.wrap "error during I/O" e),
       [Ev.spawnOutputCopy, Ev.spawnInputCopy, Ev.recvErr] ++ s.closeTrace ++ [Ev.ret])
  | none =>
      (none,
       [Ev.spawnOutputCopy, Ev.spawnInputCopy, Ev.recvErr] ++ s.closeTrace ++ [Ev.ret])

/-- `ImageProgress` from `client.go`: one decoded JSON record of an image
operation. Only the fields the consuming loop reads are modelled by name;
`error` is the embedded operation-error field. -/
structure ImageProgress where
  stream : String
  status : String
  progress : String
  auxID : String
  errorDetailMessage : String
  error : String
deriving DecidableEq, Repr

/-- How a JSON record stream ends after its complete values: a clean EOF
between complete values (`json.Decoder` reports `io.EOF`), or truncated
partial trailing JSON (`json.Decoder` reports a non-EOF decode error).
This EOF-vs-error distinction of the decoder is the documented contract of the
external `encoding/json` decoder the loops consume. -/
inductive StreamEnd
  | cleanEof
  | truncated (e : GoErr)
deriving DecidableEq, Repr

/-- The decode loop of `Client.PullImage` from the source: decode records one
by one; on `io.EOF` break and return nil; on another decode error return it;
if the `Error` field of a decoded record is non-empty return the pull error;
otherwise print a non-empty `Status` and continue. Returns the statuses
written to the image response writer and the error, if any. -/
def pullLoop (records : List ImageProgress) (endState : StreamEnd) :
    List String × Option GoErr :=
  match records with
  | [] =>
      match endState with
      | StreamEnd.cleanEof => ([], none)
      | StreamEnd.truncated e => ([], some e)
  | p :: rest =>
      if p.error ≠ "" then ([], some (GoErr.base ("pull error: " ++ p.error)))
      else
        let res := pullLoop rest endState
        ((if p.status ≠ "" then [p.status] else []) ++ res.1, res.2)

/-- The decode loop inside the goroutine of `Client.ContainerGetStatsChan`, from
the source: decode records one by one, sending each decoded value on the
stats channel; on `io.EOF` return with no error sent; on another decode
error send it on the error channel and return. Values are opaque to the
loop, hence the type parameter. Returns the values sent and the error sent,
if any. (The `ctx.Done` branch is external cancellation and not modelled.) -/
def statsLoop (α : Type) (vals : List α) (endState : StreamEnd) :
    List α × Option GoErr :=
  match vals with
  | [] =>
      match endState with
      | StreamEnd.cleanEof => ([], none)
      | StreamEnd.truncated e => ([], some e)
  | v :: rest =>
      let res := statsLoop α rest endState
      (v :: res.1, res.2)

/-- Outcome of the background log-tee goroutine of `GetContainerLogs`:
whether the log stream and the pipe write end were closed, the end-of-stream
signal the pipe reader (the handle held by the immediate caller) observes — `none`
means a clean EOF, `some e` would mean the error was propagated through the
pipe — and the message, if any, printed to the stdout of the process. -/
structure TeeOutcome where
  rcClosed : Bool
  pwClosed : Bool
  readerEndSignal : Option GoErr
  stdoutMessage : Option String
deriving DecidableEq, Repr

/-- The background tee goroutine of `Client.GetContainerLogs` from the
source: copy the log stream into the pipe and the configured log writer;
on every exit close the stream and the pipe with plain `pw.Close()` (never
`CloseWithError`), so the reader always observes a clean EOF; a copy error
other than `io.ErrClosedPipe` is only printed with `fmt.Printf`, and an
`io.ErrClosedPipe` error is dropped entirely. `copyRes` is the `io.Copy`
result (`none` = EOF). -/
def teeTask (copyRes : Option GoErr) : TeeOutcome :=
  { rcClosed := true
    pwClosed := true
    readerEndSignal := none
    stdoutMessage :=
      match copyRes with
      | none => none
      | some e =>
          if e = GoErr.closedPipe then none
          else some "Error copying container logs" }

/-- One iteration of the polling goroutine of `Session.MonitorSize` from the
source: a successful `GetSize` result `(width, height)` is sent on the
resize channel as `(height, width)`; a failed query makes the goroutine
return (the deferred `close` closes the channel), the error itself being
dropped. `none` models the closed channel. -/
def monitorStep (sizeRes : Except GoErr (Nat × Nat)) : Option (Nat × Nat) :=
  match sizeRes with
  | Except.error _ => none
  | Except.ok (width, height) => some (height, width)

theorem be32val_be32 (n : Nat) (h : n < 4294967296) :
    be32val (n / 16777216 % 256) (n / 65536 % 256) (n / 256 % 256) (n % 256) = n := by
  unfold be32val
  omega

theorem stdCopy_nil : stdCopy [] = ([], 0, none) := by
  rw [stdCopy]

theorem stdCopy_cons_frame (f : Frame) (tail : List Nat)
    (h : f.payload.length < 4294967296) :
    stdCopy (encodeFrame f ++ tail) =
      ((routeTag f.tag, f.payload) :: (stdCopy tail).1,
       f.payload.length + (stdCopy tail).2.1,
       (stdCopy tail).2.2) := by
  obtain ⟨tg, pl⟩ := f
  simp only [encodeFrame, be32, List.cons_append, List.append_assoc]
  rw [stdCopy]
  simp only [be32val_be32 pl.length h, List.nil_append]
  rw [if_pos (by simp : pl.length ≤ (pl ++ tail).length)]
  simp [List.take_left, List.drop_left]

theorem stdCopy_encodeFrames (fs : List Frame)
    (hv : ∀ f ∈ fs, f.payload.length < 4294967296) :
    stdCopy (encodeFrames fs) =
      (fs.map (fun f => (routeTag f.tag, f.payload)), sumPayload fs, none) := by
  induction fs with
  | nil =>
    exact stdCopy_nil
  | cons f rest ih =>
    have hf : f.payload.length < 4294967296 := hv f (List.mem_cons_self f rest)
    have hrest : ∀ g ∈ rest, g.payload.length < 4294967296 :=
      fun g hg => hv g (List.mem_cons_of_mem f hg)
    have hstep := stdCopy_cons_frame f (encodeFrames rest) hf
    have henc : encodeFrames (f :: rest) = encodeFrame f ++ encodeFrames rest := by
      simp [encodeFrames]
    rw [henc, hstep, ih hrest]
    simp [sumPayload]

theorem sinkContent_nil {ω : Type} [DecidableEq ω] (s : ω) :
    sinkContent ([] : List (ω × List Nat)) s = [] := rfl

theorem sinkContent_cons_self {ω : Type} [DecidableEq ω] (s : ω) (b : List Nat)
    (evs : List (ω × List Nat)) :
    sinkContent ((s, b) :: evs) s = b ++ sinkContent evs s := by
  simp [sinkContent]

theorem sinkContent_cons_other {ω : Type} [DecidableEq ω] (s t : ω) (b : List Nat)
    (evs : List (ω × List Nat)) (h : t ≠ s) :
    sinkContent ((t, b) :: evs) s = sinkContent evs s := by
  simp [sinkContent, h]

theorem sinkContent_map_frames {ω : Type} [DecidableEq ω] (g : Frame → ω)
    (bdy : Frame → List Nat) (fs : List Frame) (s : ω) :
    sinkContent (fs.map (fun f => (g f, bdy f))) s =
      ((fs.filter (fun f => decide (g f = s))).map bdy).flatten := by
  induction fs with
  | nil => rfl
  | cons f rest ih =>
    by_cases h : g f = s
    · rw [List.map_cons, List.filter_cons_of_pos (by simpa using h), h,
        sinkContent_cons_self, List.map_cons, List.flatten_cons, ih]
    · rw [List.map_cons, List.filter_cons_of_neg (by simpa using h),
        sinkContent_cons_other _ _ _ _ h, ih]

/-- Claim C1: for every source stream consisting of a sequence of valid
frames, `LogCopier.Copy` routes each payload to the stdout sink when the tag
is STDOUT (1) and to the stderr sink when the tag is STDERR (2), preserving
intra-channel byte order, and the returned written count equals the sum of
all payload lengths, header bytes excluded. -/
theorem C1_copy_routes_and_counts {ω : Type} [DecidableEq ω] (s₁ s₂ : ω)
    (hne : s₁ ≠ s₂) (fs : List Frame)
    (hv : ∀ f ∈ fs, f.payload.length < 4294967296 ∧ (f.tag = 1 ∨ f.tag = 2)) :
    ((LogCopier.mk s₁ s₂).Copy (encodeFrames fs)).2.2 = none ∧
    ((LogCopier.mk s₁ s₂).Copy (encodeFrames fs)).2.1 = sumPayload fs ∧
    sinkContent ((LogCopier.mk s₁ s₂).Copy (encodeFrames fs)).1 s₁ =
      ((fs.filter (fun f => decide (f.tag = 1))).map (fun f => f.payload)).flatten ∧
    sinkContent ((LogCopier.mk s₁ s₂).Copy (encodeFrames fs)).1 s₂ =
      ((fs.filter (fun f => decide (f.tag = 2))).map (fun f => f.payload)).flatten := by
  have hlen : ∀ f ∈ fs, f.payload.length < 4294967296 := fun f hf => (hv f hf).1
  simp only [LogCopier.Copy, stdCopy_encodeFrames fs hlen, List.map_map]
  have hcomp : ((fun p : Chan × List Nat => ((LogCopier.mk s₁ s₂).sinkOf p.1, p.2)) ∘
      fun f : Frame => (routeTag f.tag, f.payload)) =
      fun f : Frame => ((LogCopier.mk s₁ s₂).sinkOf (routeTag f.tag), f.payload) := rfl
  rw [hcomp]
  refine ⟨trivial, trivial, ?_, ?_⟩
  · rw [sinkContent_map_frames]
    have hflt : fs.filter (fun f => decide ((LogCopier.mk s₁ s₂).sinkOf (routeTag f.tag) = s₁)) =
        fs.filter (fun f => decide (f.tag = 1)) := by
      apply List.filter_congr
      intro f hf
      rcases (hv f hf).2 with h1 | h2
      · simp [h1, routeTag, LogCopier.sinkOf]
      · simp [h2, routeTag, LogCopier.sinkOf, Ne.symm hne]
    rw [hflt]
  · rw [sinkContent_map_frames]
    have hflt : fs.filter (fun f => decide ((LogCopier.mk s₁ s₂).sinkOf (routeTag f.tag) = s₂)) =
        fs.filter (fun f => decide (f.tag = 2)) := by
      apply List.filter_congr
      intro f hf
      rcases (hv f hf).2 with h1 | h2
      · simp [h1, routeTag, LogCopier.sinkOf, hne]
      · simp [h2, routeTag, LogCopier.sinkOf]
    rw [hflt]

/-- Witness for C1 at the own input of the repository test: frames (STDOUT, "hello") then
(STDERR, "world") with sinks 0 and 1; stdout sink holds "hello", stderr sink
holds "world", and the written count is 10. -/
theorem C1_witness :
    ((LogCopier.mk 0 1).Copy
      (encodeFrames [Frame.mk 1 [104, 101, 108, 108, 111],
        Frame.mk 2 [119, 111, 114, 108, 100]])).2.2 = none ∧
    ((LogCopier.mk 0 1).Copy
      (encodeFrames [Frame.mk 1 [104, 101, 108, 108, 111],
        Frame.mk 2 [119, 111, 114, 108, 100]])).2.1 =
      sumPayload [Frame.mk 1 [104, 101, 108, 108, 111],
        Frame.mk 2 [119, 111, 114, 108, 100]] ∧
    sinkContent ((LogCopier.mk 0 1).Copy
      (encodeFrames [Frame.mk 1 [104, 101, 108, 108, 111],
        Frame.mk 2 [119, 111, 114, 108, 100]])).1 0 =
      (([Frame.mk 1 [104, 101, 108, 108, 111],
        Frame.mk 2 [119, 111, 114, 108, 100]].filter
          (fun f => decide (f.tag = 1))).map (fun f => f.payload)).flatten ∧
    sinkContent ((LogCopier.mk 0 1).Copy
      (encodeFrames [Frame.mk 1 [104, 101, 108, 108, 111],
        Frame.mk 2 [119, 111, 114, 108, 100]])).1 1 =
      (([Frame.mk 1 [104, 101, 108, 108, 111],
        Frame.mk 2 [119, 111, 114, 108, 100]].filter
          (fun f => decide (f.tag = 2))).map (fun f => f.payload)).flatten :=
  C1_copy_routes_and_counts 0 1 (by decide)
    [Frame.mk 1 [104, 101, 108, 108, 111], Frame.mk 2 [119, 111, 114, 108, 100]]
    (by decide)

/-- Claim C5: for every valid framed source and every pair of prefix strings,
`LogCopier.CopyWithPrefix` writes each routed payload to the matching sink
with the fixed prefix of that channel immediately before it, while the returned
written count still equals the sum of payload lengths only — prefix bytes
are not counted. -/
theorem C5_copy_with_prefix {ω : Type} [DecidableEq ω] (s₁ s₂ : ω)
    (hne : s₁ ≠ s₂) (outPfx errPfx : List Nat) (fs : List Frame)
    (hv : ∀ f ∈ fs, f.payload.length < 4294967296 ∧ (f.tag = 1 ∨ f.tag = 2)) :
    ((LogCopier.mk s₁ s₂).CopyWithPrefix (encodeFrames fs) outPfx errPfx).2.2 = none ∧
    ((LogCopier.mk s₁ s₂).CopyWithPrefix (encodeFrames fs) outPfx errPfx).2.1 =
      sumPayload fs ∧
    sinkContent ((LogCopier.mk s₁ s₂).CopyWithPrefix (encodeFrames fs) outPfx errPfx).1 s₁ =
      ((fs.filter (fun f => decide (f.tag = 1))).map
        (fun f => outPfx ++ f.payload)).flatten ∧
    sinkContent ((LogCopier.mk s₁ s₂).CopyWithPrefix (encodeFrames fs) outPfx errPfx).1 s₂ =
      ((fs.filter (fun f => decide (f.tag = 2))).map
        (fun f => errPfx ++ f.payload)).flatten := by
  have hlen : ∀ f ∈ fs, f.payload.length < 4294967296 := fun f hf => (hv f hf).1
  simp only [LogCopier.CopyWithPrefix, stdCopy_encodeFrames fs hlen, List.map_map]
  have hcomp : ((fun p : Chan × List Nat =>
      ((LogCopier.mk s₁ s₂).sinkOf p.1,
       (prefixWriterWrite (match p.1 with | Chan.out => outPfx | Chan.err => errPfx) p.2).1)) ∘
      fun f : Frame => (routeTag f.tag, f.payload)) =
      fun f : Frame =>
        ((LogCopier.mk s₁ s₂).sinkOf (routeTag f.tag),
         (match routeTag f.tag with | Chan.out => outPfx | Chan.err => errPfx) ++ f.payload) := rfl
  rw [hcomp]
  refine ⟨trivial, trivial, ?_, ?_⟩
  · rw [sinkContent_map_frames]
    have hflt : fs.filter (fun f => decide ((LogCopier.mk s₁ s₂).sinkOf (routeTag f.tag) = s₁)) =
        fs.filter (fun f => decide (f.tag = 1)) := by
      apply List.filter_congr
      intro f hf
      rcases (hv f hf).2 with h1 | h2
      · simp [h1, routeTag, LogCopier.sinkOf]
      · simp [h2, routeTag, LogCopier.sinkOf, Ne.symm hne]
    rw [hflt]
    congr 1
    apply List.map_congr_left
    intro f hf
    have ht : f.tag = 1 := by simpa using (List.mem_filter.mp hf).2
    simp [ht, routeTag]
  · rw [sinkContent_map_frames]
    have hflt : fs.filter (fun f => decide ((LogCopier.mk s₁ s₂).sinkOf (routeTag f.tag) = s₂)) =
        fs.filter (fun f => decide (f.tag = 2)) := by
      apply List.filter_congr
      intro f hf
      rcases (hv f hf).2 with h1 | h2
      · simp [h1, routeTag, LogCopier.sinkOf, hne]
      · simp [h2, routeTag, LogCopier.sinkOf]
    rw [hflt]
    congr 1
    apply List.map_congr_left
    intro f hf
    have ht : f.tag = 2 := by simpa using (List.mem_filter.mp hf).2
    simp [ht, routeTag]

/-- Witness for C5 at the own input of the repository test: prefixes "[OUT] " and "[ERR] "
on frames (STDOUT, "hello") then (STDERR, "world"); the stdout sink holds
"[OUT] hello", the stderr sink holds "[ERR] world", and the count is 10. -/
theorem C5_witness :
    ((LogCopier.mk 0 1).CopyWithPrefix
      (encodeFrames [Frame.mk 1 [104, 101, 108, 108, 111],
        Frame.mk 2 [119, 111, 114, 108, 100]])
      [91, 79, 85, 84, 93, 32] [91, 69, 82, 82, 93, 32]).2.2 = none ∧
    ((LogCopier.mk 0 1).CopyWithPrefix
      (encodeFrames [Frame.mk 1 [104, 101, 108, 108, 111],
        Frame.mk 2 [119, 111, 114, 108, 100]])
      [91, 79, 85, 84, 93, 32] [91, 69, 82, 82, 93, 32]).2.1 =
      sumPayload [Frame.mk 1 [104, 101, 108, 108, 111],
        Frame.mk 2 [119, 111, 114, 108, 100]] ∧
    sinkContent ((LogCopier.mk 0 1).CopyWithPrefix
      (encodeFrames [Frame.mk 1 [104, 101, 108, 108, 111],
        Frame.mk 2 [119, 111, 114, 108, 100]])
      [91, 79, 85, 84, 93, 32] [91, 69, 82, 82, 93, 32]).1 0 =
      (([Frame.mk 1 [104, 101, 108, 108, 111],
        Frame.mk 2 [119, 111, 114, 108, 100]].filter
          (fun f => decide (f.tag = 1))).map
        (fun f => [91, 79, 85, 84, 93, 32] ++ f.payload)).flatten ∧
    sinkContent ((LogCopier.mk 0 1).CopyWithPrefix
      (encodeFrames [Frame.mk 1 [104, 101, 108, 108, 111],
        Frame.mk 2 [119, 111, 114, 108, 100]])
      [91, 79, 85, 84, 93, 32] [91, 69, 82, 82, 93, 32]).1 1 =
      (([Frame.mk 1 [104, 101, 108, 108, 111],
        Frame.mk 2 [119, 111, 114, 108, 100]].filter
          (fun f => decide (f.tag = 2))).map
        (fun f => [91, 69, 82, 82, 93, 32] ++ f.payload)).flatten :=
  C5_copy_with_prefix 0 1 (by decide) [91, 79, 85, 84, 93, 32] [91, 69, 82, 82, 93, 32]
    [Frame.mk 1 [104, 101, 108, 108, 111], Frame.mk 2 [119, 111, 114, 108, 100]]
    (by decide)

/-- Claim C10: `NewLogCopier w nil` constructs a copier whose stderr
destination is `w` itself, so both the STDOUT-tagged and STDERR-tagged
channels are routed to the single sink `w` in arrival order, and a nil
stderr writer is never written to during `Copy`. -/
theorem C10_nil_stderr_single_sink {ω : Type} [DecidableEq ω] (w : ω)
    (fs : List Frame) (hv : ∀ f ∈ fs, f.payload.length < 4294967296) :
    (NewLogCopier w none).stdout = w ∧
    (NewLogCopier w none).stderr = w ∧
    ((NewLogCopier w none).Copy (encodeFrames fs)).2.2 = none ∧
    sinkContent ((NewLogCopier w none).Copy (encodeFrames fs)).1 w =
      (fs.map (fun f => f.payload)).flatten := by
  refine ⟨rfl, rfl, ?_, ?_⟩
  · simp [LogCopier.Copy, stdCopy_encodeFrames fs hv]
  · simp only [LogCopier.Copy, stdCopy_encodeFrames fs hv, List.map_map]
    have hcomp : ((fun p : Chan × List Nat => ((NewLogCopier w none).sinkOf p.1, p.2)) ∘
        fun f : Frame => (routeTag f.tag, f.payload)) =
        fun f : Frame => ((NewLogCopier w none).sinkOf (routeTag f.tag), f.payload) := rfl
    rw [hcomp, sinkContent_map_frames]
    have hflt : fs.filter
        (fun f => decide ((NewLogCopier w none).sinkOf (routeTag f.tag) = w)) = fs := by
      rw [List.filter_eq_self]
      intro f _
      rcases hc : routeTag f.tag with _ | _ <;>
        simp [NewLogCopier, LogCopier.sinkOf]
    rw [hflt]

/-- Witness for C10: sink 7 with a nil stderr writer on the two test frames;
all payloads land on sink 7 in arrival order. -/
theorem C10_witness :
    (NewLogCopier 7 none).stdout = 7 ∧
    (NewLogCopier 7 none).stderr = 7 ∧
    ((NewLogCopier 7 none).Copy
      (encodeFrames [Frame.mk 1 [104, 101, 108, 108, 111],
        Frame.mk 2 [119, 111, 114, 108, 100]])).2.2 = none ∧
    sinkContent ((NewLogCopier 7 none).Copy
      (encodeFrames [Frame.mk 1 [104, 101, 108, 108, 111],
        Frame.mk 2 [119, 111, 114, 108, 100]])).1 7 =
      ([Frame.mk 1 [104, 101, 108, 108, 111],
        Frame.mk 2 [119, 111, 114, 108, 100]].map (fun f => f.payload)).flatten :=
  C10_nil_stderr_single_sink 7
    [Frame.mk 1 [104, 101, 108, 108, 111], Frame.mk 2 [119, 111, 114, 108, 100]]
    (by decide)

/-- Counterexample to claim C2 as stated: for the session whose saved state
survived a first `Close`, the second `Close` performs one further restore
attempt (not zero) — `Close` never clears `oldState`, so the terminal
restore is not attempted at most once per session. -/
theorem C2_counterexample :
    ¬ ((((Session.mk 0 (some (TermState.mk 0)) 1 2).close none).1.close none).2.2 = 0) := by
  decide

/-- Claim C2 (amended): a second `Close` returns no error when its restore
succeeds, but it does re-attempt the terminal restore — `Close` leaves the
session (in particular `oldState`) unchanged, so every call on a session
with a saved state performs exactly one restore attempt. -/
theorem C2_amended_second_close (s : Session) (st : TermState)
    (h : s.oldState = some st) (r : Option GoErr) :
    (s.close r).1 = s ∧
    ((s.close none).2.1 = none ∧ (s.close none).2.2 = 1) ∧
    (((s.close r).1.close none).2.1 = none ∧ ((s.close r).1.close none).2.2 = 1) := by
  have hcl : ∀ rr : Option GoErr, (s.close rr).1 = s := by
    intro rr
    unfold Session.close
    rw [h]
    cases rr <;> rfl
  refine ⟨hcl r, ?_, ?_⟩
  · unfold Session.close
    rw [h]
    exact ⟨rfl, rfl⟩
  · rw [hcl r]
    unfold Session.close
    rw [h]
    exact ⟨rfl, rfl⟩

/-- Witness for the amended C2 at a concrete session: the second `Close`
returns no error yet performs one more restore attempt. -/
theorem C2_amended_witness :
    ((Session.mk 0 (some (TermState.mk 0)) 1 2).close none).1 =
      Session.mk 0 (some (TermState.mk 0)) 1 2 ∧
    (((Session.mk 0 (some (TermState.mk 0)) 1 2).close none).2.1 = none ∧
     ((Session.mk 0 (some (TermState.mk 0)) 1 2).close none).2.2 = 1) ∧
    ((((Session.mk 0 (some (TermState.mk 0)) 1 2).close none).1.close none).2.1 = none ∧
     (((Session.mk 0 (some (TermState.mk 0)) 1 2).close none).1.close none).2.2 = 1) :=
  C2_amended_second_close (Session.mk 0 (some (TermState.mk 0)) 1 2)
    (TermState.mk 0) rfl none

/-- Claim C3: on every exit path of `Session.Start` — whichever direction
finishes first, whether with EOF (`none`) or an error — the deferred `Close`
runs before control returns to the caller, so the terminal mode saved at
session creation is restored before the caller regains control. -/
theorem C3_close_before_return (s : Session) (st : TermState)
    (h : s.oldState = some st) (first : FirstFinisher)
    (outputRes inputRes restoreResult : Option GoErr) :
    ∃ pre, (s.start first outputRes inputRes restoreResult).2 = pre ++ [Ev.ret] ∧
      Ev.closeCalled ∈ pre ∧ Ev.restoreAttempt ∈ pre := by
  refine ⟨[Ev.spawnOutputCopy, Ev.spawnInputCopy, Ev.recvErr] ++ s.closeTrace, ?_, ?_, ?_⟩
  · unfold Session.start
    cases first <;> cases outputRes <;> cases inputRes <;> rfl
  · simp [Session.closeTrace]
  · simp [Session.closeTrace, h]

/-- Witness for C3: a concrete session whose output direction finishes first
with an error; the trace still ends in `Close` (with its restore attempt)
followed by the return. -/
theorem C3_witness :
    ∃ pre, ((Session.mk 0 (some (TermState.mk 0)) 1 2).start FirstFinisher.outputCopy
        (some (GoErr.base "read failed")) none none).2 = pre ++ [Ev.ret] ∧
      Ev.closeCalled ∈ pre ∧ Ev.restoreAttempt ∈ pre :=
  C3_close_before_return (Session.mk 0 (some (TermState.mk 0)) 1 2)
    (TermState.mk 0) rfl FirstFinisher.outputCopy
    (some (GoErr.base "read failed")) none none

/-- Claim C7: when the raw-mode switch fails, `NewSession` returns the
wrapped error and no session handle — no terminal-mode snapshot is retained
and there is nothing to call `Close` on. -/
theorem C7_failed_open_returns_error (stdin hijacked reader : Nat) (e : GoErr) :
    NewSession stdin hijacked reader (Except.error e) =
      Except.error (GoErr.wrap "failed to set terminal to raw mode" e) := rfl

/-- Claim C9: `Session.Start` returns as soon as the first copy direction
terminates: its entire result (error and trace) is independent of the
eventual result of the still-blocked sibling and of the discarded restore
outcome, it performs exactly one `errCh` receive, and it never emits an
explicit cancellation of the sibling. -/
theorem C9_first_finisher_termination (s : Session)
    (outputRes inputRes r outputResB inputResB rb : Option GoErr)
    (first : FirstFinisher) :
    (s.start FirstFinisher.outputCopy outputRes inputRes r =
      s.start FirstFinisher.outputCopy outputRes inputResB rb) ∧
    (s.start FirstFinisher.inputCopy outputRes inputRes r =
      s.start FirstFinisher.inputCopy outputResB inputRes rb) ∧
    (s.start first outputRes inputRes r).2.count Ev.recvErr = 1 ∧
    Ev.cancelSibling ∉ (s.start first outputRes inputRes r).2 := by
  refine ⟨?_, ?_, ?_, ?_⟩
  · unfold Session.start
    cases outputRes <;> rfl
  · unfold Session.start
    cases inputRes <;> rfl
  · unfold Session.start
    cases hs : s.oldState <;> cases first <;> cases outputRes <;> cases inputRes <;>
      simp [Session.closeTrace, hs, List.count_cons, List.count_append]
  · unfold Session.start
    cases hs : s.oldState <;> cases first <;> cases outputRes <;> cases inputRes <;>
      simp [Session.closeTrace, hs]

/-- Claim C4: if some successfully decoded progress record carries a
non-empty embedded `Error` field, `PullImage` returns an error — decode
success does not imply operation success. This holds however the stream
ends. -/
theorem C4_embedded_error_fails_pull (records : List ImageProgress)
    (endState : StreamEnd) (p : ImageProgress)
    (hp : p ∈ records) (he : p.error ≠ "") :
    ((pullLoop records endState).2).isSome = true := by
  induction records with
  | nil => cases hp
  | cons q rest ih =>
    rcases List.mem_cons.mp hp with hq | hq
    · subst hq
      unfold pullLoop
      rw [if_pos he]
      rfl
    · unfold pullLoop
      by_cases hqerr : q.error ≠ ""
      · rw [if_pos hqerr]
        rfl
      · rw [if_neg hqerr]
        exact ih hq

/-- Witness for C4: a stream holding one well-formed record whose embedded
error field is non-empty (after a benign record), ending cleanly; the pull
still fails. -/
theorem C4_witness :
    ((pullLoop
      [ImageProgress.mk "" "Downloading" "" "" "" "",
       ImageProgress.mk "" "" "" "" "manifest unknown" "manifest unknown"]
      StreamEnd.cleanEof).2).isSome = true :=
  C4_embedded_error_fails_pull
    [ImageProgress.mk "" "Downloading" "" "" "" "",
     ImageProgress.mk "" "" "" "" "manifest unknown" "manifest unknown"]
    StreamEnd.cleanEof
    (ImageProgress.mk "" "" "" "" "manifest unknown" "manifest unknown")
    (by simp) (by simp)

/-- Claim C6: in the stats and pull decode loops, a clean end-of-stream
between complete JSON values terminates the sequence normally with no error
surfaced, whereas truncated trailing JSON surfaces the decode error to the
consumer. (For the pull loop the clean-termination half is stated for
streams whose records carry no embedded error, since such a record ends the
loop before the stream end is reached.) -/
theorem C6_eof_vs_truncation (α : Type) (vals : List α)
    (records : List ImageProgress) (e : GoErr)
    (hok : ∀ p ∈ records, p.error = "") :
    (statsLoop α vals StreamEnd.cleanEof).2 = none ∧
    (statsLoop α vals (StreamEnd.truncated e)).2 = some e ∧
    (pullLoop records StreamEnd.cleanEof).2 = none ∧
    (pullLoop records (StreamEnd.truncated e)).2 = some e := by
  refine ⟨?_, ?_, ?_, ?_⟩
  · induction vals with
    | nil => rfl
    | cons v rest ih => simpa [statsLoop] using ih
  · induction vals with
    | nil => rfl
    | cons v rest ih => simpa [statsLoop] using ih
  · induction records with
    | nil => rfl
    | cons p rest ih =>
      have hp : p.error = "" := hok p (List.mem_cons_self p rest)
      have hrest : ∀ q ∈ rest, q.error = "" :=
        fun q hq => hok q (List.mem_cons_of_mem p hq)
      unfold pullLoop
      rw [if_neg (by simpa using hp)]
      simpa using ih hrest
  · induction records with
    | nil => rfl
    | cons p rest ih =>
      have hp : p.error = "" := hok p (List.mem_cons_self p rest)
      have hrest : ∀ q ∈ rest, q.error = "" :=
        fun q hq => hok q (List.mem_cons_of_mem p hq)
      unfold pullLoop
      rw [if_neg (by simpa using hp)]
      simpa using ih hrest

/-- Witness for C6: two opaque stats values and one clean pull record; a
clean EOF surfaces no error in either loop, truncated trailing JSON
surfaces the decode error in both. -/
theorem C6_witness :
    (statsLoop Nat [10, 20] StreamEnd.cleanEof).2 = none ∧
    (statsLoop Nat [10, 20] (StreamEnd.truncated (GoErr.base "unexpected EOF"))).2 =
      some (GoErr.base "unexpected EOF") ∧
    (pullLoop [ImageProgress.mk "" "Downloading" "" "" "" ""]
      StreamEnd.cleanEof).2 = none ∧
    (pullLoop [ImageProgress.mk "" "Downloading" "" "" "" ""]
      (StreamEnd.truncated (GoErr.base "unexpected EOF"))).2 =
      some (GoErr.base "unexpected EOF") :=
  C6_eof_vs_truncation Nat [10, 20]
    [ImageProgress.mk "" "Downloading" "" "" "" ""]
    (GoErr.base "unexpected EOF") (by simp)

/-- Counterexample to claim C8 as stated: a failing copy in the background
log-tee task of `GetContainerLogs` is not returned to the caller of the
operation — the pipe reader observes a clean EOF (`none`), not the error; the
error is merely printed to the stdout of the process. -/
theorem C8_counterexample :
    (teeTask (some (GoErr.base "read failed"))).readerEndSignal = none ∧
    (teeTask (some (GoErr.base "read failed"))).stdoutMessage =
      some "Error copying container logs" := by
  constructor <;> rfl

/-- Claim C8 (amended): the synchronous loops surface their errors to the
immediate caller (truncation errors in the stats/pull loops are returned,
clean EOF is not an error), but the background log-tee task never returns
its copy error to any caller: the pipe is always closed cleanly so the
reader sees EOF, a non-`ErrClosedPipe` error is only printed to the process
stdout, an `ErrClosedPipe` error is dropped entirely — and the size-monitor
loop likewise swallows a failed size query by closing its channel. -/
theorem C8_amended_tee_swallows (e : GoErr) :
    (teeTask (some e)).readerEndSignal = none ∧
    (teeTask (some e)).rcClosed = true ∧
    (teeTask (some e)).pwClosed = true ∧
    (teeTask (some e)).stdoutMessage =
      (if e = GoErr.closedPipe then none else some "Error copying container logs") ∧
    (teeTask none).stdoutMessage = none ∧
    monitorStep (Except.error e) = none :=
  ⟨rfl, rfl, rfl, rfl, rfl, rfl⟩

end Godock

